import Mathlib

/-!
Shallow embedding of the Black Star Forge agent core
(Orchestrator / Executor / Perception Layer / Error Handler / Logistics
Executor) and proofs about it.  Definitions are translated from the
TypeScript sources:
  - src/server/agent/error-handler.ts       (ErrorHandler.shouldHalt)
  - src/server/agent/perception-layer.ts    (PerceptionLayer.docVerify, runSixEyes)
  - src/server/agent/logistics-executor.ts  (detectPlatforms, buildAllPlatforms,
                                             deployWebProduction, deployAndroidProduction)
  - src/unnamed/part_017                    (Executor.executeProject, deployProject)
  - src/unnamed/part_015                    (BlackStarOrchestrator.approveDeployment)
  - src/unnamed/part_016                    (contract types)
External collaborators (Gemini, tsc, puppeteer, Stripe, Vercel CLI,
Play Store upload, nodemailer) are modelled as oracle parameters giving
the outcome of each call; the embedding additionally records which
calls were made (a trace), so that claims about calls that must not
happen can be stated.
-/

/-- JavaScript `String.prototype.includes` over lists of characters:
`containsSub s pat` is true iff `pat` occurs as a contiguous substring
of `s` (the empty pattern always occurs). -/
def containsSub : List Char → List Char → Bool
  | [], pat => pat.isEmpty
  | c :: rest, pat => pat.isPrefixOf (c :: rest) || containsSub rest pat

/-- `a.includes(b)` for strings. -/
def strContains (s pat : String) : Bool :=
  containsSub s.data pat.data

/-- JS `toLowerCase` modelled character-wise. -/
def lowerStr (s : String) : String :=
  String.mk (s.data.map Char.toLower)

/-- JS `toUpperCase` modelled character-wise. -/
def upperStr (s : String) : String :=
  String.mk (s.data.map Char.toUpper)

/-- If `p ++ q` occurs as a prefix of `s`, then `q` occurs as a substring of `s`. -/
theorem containsSub_of_prefix_append (p q s : List Char)
    (h : (p ++ q) <+: s) : containsSub s q = true := by
  induction p generalizing s with
  | nil =>
    simp only [List.nil_append] at h
    cases s with
    | nil =>
      have : q = [] := List.prefix_nil.mp h
      simp [containsSub, this]
    | cons c rest =>
      simp [containsSub, List.isPrefixOf_iff_prefix, h]
  | cons a p ih =>
    cases s with
    | nil =>
      have := List.prefix_nil.mp h
      simp at this
    | cons c rest =>
      have h2 : (p ++ q) <+: rest := by
        rcases h with ⟨t, ht⟩
        simp only [List.cons_append] at ht
        exact ⟨t, by injection ht with _ h3⟩
      simp [containsSub, ih rest h2]

/-- If `s` contains `p ++ q` as a substring, it contains `q` as a substring. -/
theorem containsSub_append_right (s p q : List Char)
    (h : containsSub s (p ++ q) = true) : containsSub s q = true := by
  induction s with
  | nil =>
    simp [containsSub] at h ⊢
    exact h.2
  | cons c rest ih =>
    simp only [containsSub, Bool.or_eq_true] at h
    rcases h with h | h
    · exact containsSub_of_prefix_append p q (c :: rest)
        (List.isPrefixOf_iff_prefix.mp h)
    · cases hr : containsSub rest q with
      | true => simp [containsSub, hr]
      | false => simp [containsSub, ih h, hr] at *

/-! ## Contract types (src/unnamed/part_016) -/

/-- Step lifecycle status, from the `PlanStep` interface. -/
inductive StepStatus
  | pending
  | in_progress
  | completed
  | failed
deriving DecidableEq, Repr

/-- Project lifecycle status, from the `ProjectState` interface. -/
inductive ProjStatus
  | planning
  | coding
  | validating
  | building
  | awaiting_approval
  | deploying
  | completed
  | failed
deriving DecidableEq, Repr

/-- Deployment platform (`'web' | 'android'`). -/
inductive Platform
  | web
  | android
deriving DecidableEq, Repr

/-- A plan step (`PlanStep`); `code?` is `Option`, `retries` a natural. -/
structure PlanStep where
  id : String
  title : String
  description : String
  status : StepStatus
  code : Option String
  retries : Nat
deriving DecidableEq, Repr

/-- The shared mutable project state (`ProjectState`).  The `details`-free
fields that the claims touch are all present; optional TS fields are
`Option`s. -/
structure ProjectState where
  orderId : String
  project_name : String
  requirements : String
  plan : List PlanStep
  currentStep : Nat
  status : ProjStatus
  workspaceDir : String
  stripeProductId : Option String
  stripePriceId : Option String
  stripePaymentLink : Option String
  screenshotPath : Option String
  failureCount : Nat
  platforms : Option (List Platform)
  androidScreenshotPath : Option String
  webScreenshotPath : Option String
  webPreviewUrl : Option String
  androidPackageName : Option String
  mockMode : Bool
deriving DecidableEq, Repr

/-- A gate's verdict (`ValidationResult`); the opaque `details?` payload is
omitted, it never influences control flow. -/
structure ValidationResult where
  passed : Bool
  error : Option String
deriving DecidableEq, Repr

/-! ## Error Handler (src/server/agent/error-handler.ts) -/

/-- `ErrorHandler.MAX_CONSECUTIVE_FAILURES`. -/
def maxConsecutiveFailures : Nat := 3

/-- `ErrorHandler.shouldHalt`: halt once `failureCount` reaches the cap. -/
def shouldHalt (projectState : ProjectState) : Bool :=
  decide (maxConsecutiveFailures ≤ projectState.failureCount)

/-! ## Perception Layer (src/server/agent/perception-layer.ts) -/

/-- API domain tag accepted by `docVerify` / `runSixEyes`. -/
inductive ApiType
  | stripe
  | firebase
  | general
deriving DecidableEq, Repr

/-- The deny-list of deprecated patterns inside `docVerify`. -/
def deprecatedPatterns : ApiType → List String
  | .stripe => ["source:", "bitcoin_receiver", "card:"]
  | .firebase => ["firebase.database()"]
  | .general => []

/-- Gate A (`docVerify`): scan the domain deny-list first; only when no
pattern matches, make one Gemini call (whose reply text is the oracle
`geminiResp`) and pass iff the upper-cased reply contains `VALID`.
Returns the verdict together with the number of Gemini calls made. -/
def docVerify (geminiResp : String) (code : String) (apiType : ApiType) :
    ValidationResult × Nat :=
  match (deprecatedPatterns apiType).find? (fun p => strContains code p) with
  | some p =>
      (⟨false, some ("Deprecated API pattern detected: " ++ p)⟩, 0)
  | none =>
      if strContains (upperStr geminiResp) "VALID" then
        (⟨true, none⟩, 1)
      else
        (⟨false, some ("API verification issue: " ++ geminiResp)⟩, 1)

/-- Identifier of one of the three gates, for call traces. -/
inductive GateCall
  | gateA
  | gateB
  | gateC
deriving DecidableEq, Repr

/-- `SixEyesResult`: the three verdicts plus the aggregate. -/
structure SixEyesResult where
  docVerify : ValidationResult
  syntaxGate : ValidationResult
  visualProof : ValidationResult
  overallPassed : Bool
deriving DecidableEq, Repr

/-- `PerceptionLayer.runSixEyes`: the oracles `docR`, `synR`, `visR` are the
verdicts each gate WOULD return if invoked.  Gates run sequentially:
B only if A passed, C only if A and B passed; skipped gates keep the
default `{ passed: true }`.  Also returns the list of gates invoked. -/
def runSixEyes (docR synR visR : ValidationResult) :
    SixEyesResult × List GateCall :=
  let docVerifyR := docR
  if docVerifyR.passed then
    let syntaxGateR := synR
    if syntaxGateR.passed then
      let visualProofR := visR
      (⟨docVerifyR, syntaxGateR, visualProofR,
        docVerifyR.passed && syntaxGateR.passed && visualProofR.passed⟩,
       [GateCall.gateA, GateCall.gateB, GateCall.gateC])
    else
      (⟨docVerifyR, syntaxGateR, ⟨true, none⟩,
        docVerifyR.passed && syntaxGateR.passed && true⟩,
       [GateCall.gateA, GateCall.gateB])
  else
    (⟨docVerifyR, ⟨true, none⟩, ⟨true, none⟩,
      docVerifyR.passed && true && true⟩,
     [GateCall.gateA])

/-- The verdict that a given gate produced in a `runSixEyes` run. -/
def gateVerdict (docR synR visR : ValidationResult) : GateCall → ValidationResult
  | .gateA => docR
  | .gateB => synR
  | .gateC => visR

/-! ## Logistics Executor: platform detection (src/server/agent/logistics-executor.ts) -/

/-- `LogisticsExecutor.detectPlatforms`: keyword classification over the
lower-cased requirements text (JS `&&` binds tighter than `||`). -/
def detectPlatforms (requirements : String) : List Platform :=
  let reqLower := lowerStr requirements
  let platforms : List Platform := []
  let platforms :=
    if strContains reqLower "web" ||
       strContains reqLower "website" ||
       strContains reqLower "landing page" ||
       strContains reqLower "vercel" ||
       (!(strContains reqLower "android") && !(strContains reqLower "mobile app")) then
      platforms ++ [Platform.web]
    else platforms
  let platforms :=
    if strContains reqLower "android" ||
       strContains reqLower "mobile app" ||
       (strContains reqLower "app" && !(strContains reqLower "web app")) then
      platforms ++ [Platform.android]
    else platforms
  if platforms.isEmpty then [Platform.web] else platforms

/-! ## Name slugs and URLs -/

/-- Collapse each maximal whitespace run to one dash (JS `.replace(/\s+/g, '-')`). -/
def collapseWsAux : List Char → Bool → List Char
  | [], _ => []
  | c :: rest, inRun =>
    if c.isWhitespace then
      if inRun then collapseWsAux rest true else '-' :: collapseWsAux rest true
    else c :: collapseWsAux rest false

/-- Lower-case a name and replace whitespace runs with dashes. -/
def slugName (name : String) : String :=
  String.mk (collapseWsAux (lowerStr name).data false)

/-- Lower-case a name and delete all whitespace (JS `.replace(/\s+/g, '')`). -/
def packName (name : String) : String :=
  String.mk ((lowerStr name).data.filter (fun c => !c.isWhitespace))

/-- The simulated deployment / mock preview URL built from the project name. -/
def deploymentUrl (name : String) : String :=
  "https://" ++ slugName name ++ ".vercel.app"

/-! ## Logistics Executor: multi-platform build (src/server/agent/logistics-executor.ts) -/

/-- Per-platform web entry of `MultiPlatformBuildResult`. -/
structure WebBuildEntry where
  success : Bool
  previewUrl : Option String
  screenshotPath : Option String
  error : Option String
deriving DecidableEq, Repr

/-- Per-platform android entry of `MultiPlatformBuildResult`. -/
structure AndroidBuildEntry where
  success : Bool
  aabPath : Option String
  screenshotPath : Option String
  error : Option String
deriving DecidableEq, Repr

/-- `MultiPlatformBuildResult` (src/server/agent/logistics/index.ts). -/
structure MultiPlatformBuildResult where
  android : Option AndroidBuildEntry
  web : Option WebBuildEntry
  overallSuccess : Bool
deriving DecidableEq, Repr

/-- Outcome of one `vercelDeployer.deployAndVerify` / `deployProduction` call. -/
structure VercelDeployOutcome where
  success : Bool
  previewUrl : Option String
  screenshotPath : Option String
  error : Option String
deriving DecidableEq, Repr

/-- Outcome of one `androidBuilder.verifyAndDeploy` call. -/
structure AndroidOutcome where
  success : Bool
  aabPath : Option String
  screenshotPath : Option String
  error : Option String
deriving DecidableEq, Repr

/-- `LogisticsExecutor.buildAllPlatforms`.  Oracles: `webCall` is the outcome
of the web deploy-and-verify collaborator (`Except.error` models a thrown
exception reaching the `catch`), `pkgCall` the outcome of
`getPackageName`, `androidCall` the outcome of `verifyAndDeploy`.
Returns the aggregate result and the mutated project state. -/
def buildAllPlatforms (isMockMode : Bool)
    (webCall : Except String VercelDeployOutcome)
    (pkgCall : Except String (Option String))
    (androidCall : Except String AndroidOutcome)
    (projectState : ProjectState) : MultiPlatformBuildResult × ProjectState :=
  if isMockMode then
    let platforms := projectState.platforms.getD [Platform.web]
    let result : MultiPlatformBuildResult := ⟨none, none, true⟩
    let (result, st) :=
      if Platform.web ∈ platforms then
        let w : WebBuildEntry :=
          ⟨true, some (deploymentUrl projectState.project_name),
           some (projectState.workspaceDir ++ "/web-screenshot.png"), none⟩
        ({result with web := some w},
         {projectState with webPreviewUrl := w.previewUrl,
                            webScreenshotPath := w.screenshotPath})
      else (result, projectState)
    let (result, st) :=
      if Platform.android ∈ platforms then
        let a : AndroidBuildEntry :=
          ⟨true,
           some (st.workspaceDir ++ "/android/app/build/outputs/bundle/release/app-release.aab"),
           some (st.workspaceDir ++ "/android-screenshot.png"), none⟩
        ({result with android := some a},
         {st with androidPackageName := some ("com.blackstar." ++ packName st.project_name),
                  androidScreenshotPath := a.screenshotPath})
      else (result, st)
    (result, {st with status := ProjStatus.awaiting_approval})
  else
    let platforms := projectState.platforms.getD [Platform.web]
    let (result, st) : MultiPlatformBuildResult × ProjectState :=
      if Platform.web ∈ platforms then
        match webCall with
        | .ok webResult =>
            let entry : WebBuildEntry :=
              ⟨webResult.success, webResult.previewUrl, webResult.screenshotPath,
               webResult.error⟩
            if webResult.success then
              (⟨none, some entry, true⟩,
               {projectState with webPreviewUrl := webResult.previewUrl,
                                  webScreenshotPath := webResult.screenshotPath})
            else
              (⟨none, some entry, false⟩, projectState)
        | .error msg =>
            (⟨none, some ⟨false, none, none, some msg⟩, false⟩, projectState)
      else (⟨none, none, true⟩, projectState)
    let (result, st) :=
      if Platform.android ∈ platforms then
        match pkgCall with
        | .error msg =>
            ({result with android := some ⟨false, none, none, some msg⟩,
                          overallSuccess := false}, st)
        | .ok none =>
            ({result with
                android := some ⟨false, none, none,
                  some "Could not determine Android package name from AndroidManifest.xml"⟩,
                overallSuccess := false}, st)
        | .ok (some pkg) =>
            let st := {st with androidPackageName := some pkg}
            match androidCall with
            | .error msg =>
                ({result with android := some ⟨false, none, none, some msg⟩,
                              overallSuccess := false}, st)
            | .ok ar =>
                let entry : AndroidBuildEntry :=
                  ⟨ar.success, ar.aabPath, ar.screenshotPath, ar.error⟩
                if ar.success then
                  ({result with android := some entry},
                   {st with androidScreenshotPath := ar.screenshotPath})
                else
                  ({result with android := some entry, overallSuccess := false}, st)
      else (result, st)
    if result.overallSuccess then
      (result, {st with status := ProjStatus.awaiting_approval})
    else
      (result, {st with status := ProjStatus.failed})

/-- Result of `LogisticsExecutor.deployWebProduction`. -/
structure WebProdResult where
  success : Bool
  url : Option String
deriving DecidableEq, Repr

/-- `LogisticsExecutor.deployWebProduction`: wraps one `deployProduction`
call on the Vercel collaborator. -/
def deployWebProduction (prodCall : VercelDeployOutcome)
    (_projectState : ProjectState) : WebProdResult :=
  if prodCall.success then ⟨true, prodCall.previewUrl⟩ else ⟨false, none⟩

/-- `LogisticsExecutor.deployAndroidProduction`: wraps one
`deployToPlayStore` call, reporting its `passed` flag. -/
def deployAndroidProduction (playStoreCall : ValidationResult)
    (_projectState : ProjectState) : Bool :=
  playStoreCall.passed

/-! ## Executor (src/unnamed/part_017, second revision, lines 293-713) -/

/-- `Executor.maxRetries`. -/
def maxRetries : Nat := 3

/-- The payment-step tag: title mentions payment or stripe (lower-cased). -/
def isPaymentStep (step : PlanStep) : Bool :=
  strContains (lowerStr step.title) "payment" || strContains (lowerStr step.title) "stripe"

/-- Kind of an external collaborator call made by the executor. -/
inductive CallKind
  | coder
  | payment
deriving DecidableEq, Repr

/-- One recorded collaborator call: which collaborator, for which plan
index, at which `retries` value. -/
structure CallRec where
  kind : CallKind
  stepIdx : Nat
  attempt : Nat
deriving DecidableEq, Repr

/-- The executor's per-step `while (step.retries < this.maxRetries && !stepSucceeded)`
loop.  `gen i r` is the outcome of the code-synthesis call for step `i`
at retries value `r` (`none` = failure); `paySetup i r` the outcome of
`automatePaymentSetup` (`Except.error` = throw); `payInject` is
`injectPaymentLink`.  `fuel` equals `maxRetries - step.retries`, which
makes the recursion mirror the loop guard exactly.  Returns the final
step, mutated state, the success flag, and the calls made. -/
def runAttempts (gen : Nat → Nat → Option String)
    (paySetup : Nat → Nat → Except String (String × String × String))
    (payInject : String → String → String) (i : Nat) :
    Nat → PlanStep → ProjectState → PlanStep × ProjectState × Bool × List CallRec
  | 0, step, st => (step, st, false, [])
  | fuel + 1, step, st =>
    match gen i step.retries with
    | none =>
        let out :=
          runAttempts gen paySetup payInject i fuel
            {step with retries := step.retries + 1} st
        (out.1, out.2.1, out.2.2.1, ⟨CallKind.coder, i, step.retries⟩ :: out.2.2.2)
    | some code =>
        let step1 := {step with code := some code}
        if isPaymentStep step1 then
          match paySetup i step.retries with
          | .error _msg =>
              let out :=
                runAttempts gen paySetup payInject i fuel
                  {step1 with retries := step1.retries + 1} st
              (out.1, out.2.1, out.2.2.1,
               ⟨CallKind.coder, i, step.retries⟩ ::
               ⟨CallKind.payment, i, step.retries⟩ :: out.2.2.2)
          | .ok (productId, priceId, link) =>
              let st1 := {st with stripeProductId := some productId,
                                  stripePriceId := some priceId,
                                  stripePaymentLink := some link}
              let step2 :=
                if strContains code "<html" then
                  {step1 with code := some (payInject code link)}
                else step1
              ({step2 with status := StepStatus.completed}, st1, true,
               [⟨CallKind.coder, i, step.retries⟩,
                ⟨CallKind.payment, i, step.retries⟩])
        else
          ({step1 with status := StepStatus.completed}, st, true,
           [⟨CallKind.coder, i, step.retries⟩])

/-- Output of `executeProject`: final state, recorded collaborator calls,
per-processed-step outcome events `(index, succeeded)` in order, and the
index at which the circuit breaker returned early (if it did). -/
structure ExecResult where
  state : ProjectState
  calls : List CallRec
  events : List (Nat × Bool)
  haltedAt : Option Nat
deriving DecidableEq, Repr

/-- The `for (let i = 0; ...)` loop of `Executor.executeProject`: `done` is
the already-traversed prefix of the plan, `streak` the local
`consecutiveFailures` counter. -/
def execLoop (gen : Nat → Nat → Option String)
    (paySetup : Nat → Nat → Except String (String × String × String))
    (payInject : String → String → String) :
    List PlanStep → Nat → Nat → List PlanStep → ProjectState → ExecResult
  | [], _i, _streak, done, st =>
      let st := {st with plan := done}
      let st :=
        if done.all (fun s => decide (s.status = StepStatus.completed)) then
          {st with status := ProjStatus.awaiting_approval}
        else
          {st with status := ProjStatus.failed}
      ⟨st, [], [], none⟩
  | step :: rest, i, streak, done, st =>
      if step.status = StepStatus.completed then
        execLoop gen paySetup payInject rest (i + 1) streak (done ++ [step]) st
      else
        let step1 := {step with status := StepStatus.in_progress}
        let st1 := {st with currentStep := i}
        let att := runAttempts gen paySetup payInject i (maxRetries - step1.retries) step1 st1
        let step2 := att.1
        let st2 := att.2.1
        let ok := att.2.2.1
        let calls := att.2.2.2
        if ok then
          let out := execLoop gen paySetup payInject rest (i + 1) 0 (done ++ [step2]) st2
          ⟨out.state, calls ++ out.calls, (i, true) :: out.events, out.haltedAt⟩
        else
          let step3 := {step2 with status := StepStatus.failed}
          let st3 := {st2 with failureCount := streak + 1}
          if shouldHalt st3 then
            ⟨{st3 with status := ProjStatus.failed, plan := done ++ step3 :: rest},
             calls, [(i, false)], some i⟩
          else
            let out := execLoop gen paySetup payInject rest (i + 1) (streak + 1)
                         (done ++ [step3]) st3
            ⟨out.state, calls ++ out.calls, (i, false) :: out.events, out.haltedAt⟩

/-- `Executor.executeProject`: set `status = 'coding'`, start the loop with
`consecutiveFailures = 0` at index 0. -/
def executeProject (gen : Nat → Nat → Option String)
    (paySetup : Nat → Nat → Except String (String × String × String))
    (payInject : String → String → String)
    (projectState : ProjectState) : ExecResult :=
  let st := {projectState with status := ProjStatus.coding}
  execLoop gen paySetup payInject st.plan 0 0 [] st

/-- Result of `Executor.deployProject`. -/
structure DeployResult where
  success : Bool
  url : Option String
  error : Option String
deriving DecidableEq, Repr

/-- `Executor.deployProject` (post-approval legacy deploy): switches the
payment collaborator to live mode when a Stripe product exists
(`liveSetup` is the outcome of that `automatePaymentSetup` call;
`Except.error` models a throw landing in the `catch`), then simulates
the deployment and sets `status = 'completed'`. -/
def deployProject (liveSetup : Except String (String × String × String))
    (projectState : ProjectState) : ProjectState × DeployResult :=
  let st := {projectState with status := ProjStatus.deploying}
  match st.stripeProductId with
  | some _ =>
    match liveSetup with
    | .error msg => (st, ⟨false, none, some msg⟩)
    | .ok (_productId, _priceId, link) =>
        let st := {st with stripePaymentLink := some link}
        ({st with status := ProjStatus.completed},
         ⟨true, some (deploymentUrl st.project_name), none⟩)
  | none =>
      ({st with status := ProjStatus.completed},
       ⟨true, some (deploymentUrl st.project_name), none⟩)

/-! ## Orchestrator (src/unnamed/part_015) -/

/-- Side effects `approveDeployment` can perform, in order. -/
inductive Effect
  | deployWeb
  | deployAndroid
  | legacyDeploy
  | notifyConfirmation
  | notifyError
deriving DecidableEq, Repr

/-- Result of `BlackStarOrchestrator.approveDeployment`. -/
structure ApproveResult where
  success : Bool
  url : Option String
  error : Option String
deriving DecidableEq, Repr

/-- The TS string of each `ProjectState.status` value. -/
def statusText : ProjStatus → String
  | .planning => "planning"
  | .coding => "coding"
  | .validating => "validating"
  | .building => "building"
  | .awaiting_approval => "awaiting_approval"
  | .deploying => "deploying"
  | .completed => "completed"
  | .failed => "failed"

/-- `BlackStarOrchestrator.approveDeployment`: look the order up in the
registry; guard on `awaiting_approval`; deploy each detected platform to
production; then unconditionally run the legacy `Executor.deployProject`;
notify and report.  Returns the result, the project state afterwards
(`none` when the order is unknown), and the ordered effect trace. -/
def approveDeployment
    (registry : String → Option ProjectState)
    (webProdCall : VercelDeployOutcome)
    (playStoreCall : ValidationResult)
    (liveSetup : Except String (String × String × String))
    (orderId : String) : ApproveResult × Option ProjectState × List Effect :=
  match registry orderId with
  | none => (⟨false, none, some "Project not found"⟩, none, [])
  | some projectState =>
    if projectState.status = ProjStatus.awaiting_approval then
      let platforms := projectState.platforms.getD [Platform.web]
      let (urls1, ok1, eff1) :=
        if Platform.web ∈ platforms then
          let webDeploy := deployWebProduction webProdCall projectState
          match webDeploy with
          | ⟨true, some u⟩ => (["Web: " ++ u], true, [Effect.deployWeb])
          | _ => (([] : List String), false, [Effect.deployWeb])
        else (([] : List String), true, ([] : List Effect))
      let (urls2, ok2, eff2) :=
        if Platform.android ∈ platforms then
          if deployAndroidProduction playStoreCall projectState then
            (urls1 ++ ["Android: Google Play Internal Track"], ok1,
             eff1 ++ [Effect.deployAndroid])
          else (urls1, false, eff1 ++ [Effect.deployAndroid])
        else (urls1, ok1, eff1)
      let legacy := deployProject liveSetup projectState
      let effs := eff2 ++ [Effect.legacyDeploy]
      if ok2 && legacy.2.success then
        (⟨true, some (String.intercalate "\n" urls2), none⟩, some legacy.1,
         effs ++ [Effect.notifyConfirmation])
      else
        (⟨false, none, some "Some deployments failed. Check logs for details."⟩,
         some legacy.1, effs ++ [Effect.notifyError])
    else
      (⟨false, none,
        some ("Project is in " ++ statusText projectState.status ++
              " state, not awaiting approval")⟩,
       some projectState, [])

/-! ## Shared concrete fixtures -/

/-- A passing gate verdict. -/
def vPass : ValidationResult := ⟨true, none⟩

/-- A failing gate verdict. -/
def vFail : ValidationResult := ⟨false, some "boom"⟩

/-- A baseline project state used by concrete runs. -/
def baseState : ProjectState :=
  { orderId := "order-1"
    project_name := "Demo"
    requirements := "a landing page"
    plan := []
    currentStep := 0
    status := ProjStatus.planning
    workspaceDir := "/ws"
    stripeProductId := none
    stripePriceId := none
    stripePaymentLink := none
    screenshotPath := none
    failureCount := 0
    platforms := none
    androidScreenshotPath := none
    webScreenshotPath := none
    webPreviewUrl := none
    androidPackageName := none
    mockMode := false }

/-! ## Claim C2 -/

/-- Claim C2: in every `runSixEyes` run, Gate B is invoked only if Gate A
passed, Gate C only if Gates A and B both passed, and `overallPassed` is
true iff every gate that actually ran passed. -/
theorem runSixEyes_short_circuit (docR synR visR : ValidationResult) :
    (GateCall.gateB ∈ (runSixEyes docR synR visR).2 → docR.passed = true) ∧
    (GateCall.gateC ∈ (runSixEyes docR synR visR).2 →
      docR.passed = true ∧ synR.passed = true) ∧
    ((runSixEyes docR synR visR).1.overallPassed = true ↔
      ∀ g ∈ (runSixEyes docR synR visR).2,
        (gateVerdict docR synR visR g).passed = true) := by
  cases hA : docR.passed <;> cases hB : synR.passed <;> cases hC : visR.passed <;>
    simp [runSixEyes, gateVerdict, hA, hB, hC]

/-- Witness for C2 at concrete gate verdicts: Gate C ran in an
all-gates-invoked run, so Gates A and B had passed. -/
theorem runSixEyes_short_circuit_witness :
    GateCall.gateC ∈ (runSixEyes vPass vPass vFail).2 ∧
    (vPass.passed = true ∧ vPass.passed = true) :=
  ⟨by decide, (runSixEyes_short_circuit vPass vPass vFail).2.1 (by decide)⟩

/-! ## Claim C6 -/

/-- Claim C6 counterexample: the requirements text `"an app"` mentions
neither `"android"` nor `"web"`, yet `detectPlatforms` returns
`[web, android]`, not `[web]` alone (the bare `"app"` keyword pushes
android). -/
theorem detectPlatforms_counterexample :
    strContains (lowerStr "an app") "android" = false ∧
    strContains (lowerStr "an app") "web" = false ∧
    detectPlatforms "an app" = [Platform.web, Platform.android] := by
  decide

/-- Claim C6 amended: for every requirements text that (case-insensitively)
contains none of the substrings `"android"`, `"web"`, `"app"`,
`detectPlatforms` returns the set containing web and nothing else. -/
theorem detectPlatforms_default (s : String)
    (hA : strContains (lowerStr s) "android" = false)
    (hW : strContains (lowerStr s) "web" = false)
    (hP : strContains (lowerStr s) "app" = false) :
    detectPlatforms s = [Platform.web] := by
  have hM : strContains (lowerStr s) "mobile app" = false := by
    cases h : strContains (lowerStr s) "mobile app" with
    | false => rfl
    | true =>
      exfalso
      have e : ("mobile app").data = ("mobile ").data ++ ("app").data := by decide
      have h2 : containsSub (lowerStr s).data (("mobile ").data ++ ("app").data) = true := by
        have := h
        unfold strContains at this
        rwa [e] at this
      have := containsSub_append_right _ _ _ h2
      unfold strContains at hP
      rw [hP] at this
      exact Bool.false_ne_true this
  simp [detectPlatforms, hA, hW, hP, hM]

/-- Witness for the amended C6 at a concrete text with none of the
keywords. -/
theorem detectPlatforms_default_witness :
    strContains (lowerStr "a tool") "android" = false ∧
    strContains (lowerStr "a tool") "web" = false ∧
    strContains (lowerStr "a tool") "app" = false ∧
    detectPlatforms "a tool" = [Platform.web] :=
  ⟨by decide, by decide, by decide,
   detectPlatforms_default "a tool" (by decide) (by decide) (by decide)⟩

/-! ## Claim C7 -/

/-- Claim C7: whenever the artifact contains one of the domain's
deny-listed substrings, `docVerify` fails with `passed = false` and makes
zero Gemini calls. -/
theorem docVerify_denylist_short_circuit (geminiResp code : String)
    (apiType : ApiType)
    (h : ∃ p ∈ deprecatedPatterns apiType, strContains code p = true) :
    (docVerify geminiResp code apiType).1.passed = false ∧
    (docVerify geminiResp code apiType).2 = 0 := by
  obtain ⟨p, hp, hc⟩ := h
  unfold docVerify
  cases hf : (deprecatedPatterns apiType).find? (fun q => strContains code q) with
  | some q => simp
  | none =>
    exfalso
    have := List.find?_eq_none.mp hf p hp
    simp [hc] at this

/-- Witness for C7: stripe code using the deprecated `source:` pattern
fails Gate A with zero Gemini calls, even though the Gemini oracle would
have said VALID. -/
theorem docVerify_denylist_short_circuit_witness :
    ("source:" ∈ deprecatedPatterns ApiType.stripe ∧
      strContains "pay(source: tok)" "source:" = true) ∧
    ((docVerify "VALID" "pay(source: tok)" ApiType.stripe).1.passed = false ∧
      (docVerify "VALID" "pay(source: tok)" ApiType.stripe).2 = 0) :=
  ⟨⟨by decide, by decide⟩,
   docVerify_denylist_short_circuit "VALID" "pay(source: tok)" ApiType.stripe
     ⟨"source:", by decide, by decide⟩⟩

/-! ## Claim C4 -/

/-- Request {web, android}, android build fails: concrete state for C4. -/
def stC4 : ProjectState :=
  {baseState with requirements := "a web and android app",
                  status := ProjStatus.building,
                  platforms := some [Platform.web, Platform.android]}

/-- Web deploy-and-verify succeeds in the C4 scenario. -/
def webOkC4 : Except String VercelDeployOutcome :=
  .ok ⟨true, some "https://demo.vercel.app", some "/ws/web-screenshot.png", none⟩

/-- The Android package name is found in the C4 scenario. -/
def pkgOkC4 : Except String (Option String) := .ok (some "com.blackstar.demo")

/-- The Android build-and-verify fails in the C4 scenario. -/
def androidFailC4 : Except String AndroidOutcome :=
  .ok ⟨false, none, none, some "gradle assembleRelease failed"⟩

/-- Claim C4: `buildAllPlatforms` has no partial-success outcome:
`overallSuccess` is the AND of the per-platform success flags, a
per-platform entry is present exactly when that platform was requested,
and in particular for {web, android} with the android build failing,
`overallSuccess` is false although the web build succeeded. -/
theorem buildAllPlatforms_all_or_nothing :
    (∀ (isMock : Bool) (webCall : Except String VercelDeployOutcome)
       (pkgCall : Except String (Option String))
       (androidCall : Except String AndroidOutcome) (st : ProjectState),
       (buildAllPlatforms isMock webCall pkgCall androidCall st).1.overallSuccess =
         (Option.all (fun w => w.success)
            (buildAllPlatforms isMock webCall pkgCall androidCall st).1.web &&
          Option.all (fun a => a.success)
            (buildAllPlatforms isMock webCall pkgCall androidCall st).1.android) ∧
       ((buildAllPlatforms isMock webCall pkgCall androidCall st).1.web.isSome ↔
          Platform.web ∈ st.platforms.getD [Platform.web]) ∧
       ((buildAllPlatforms isMock webCall pkgCall androidCall st).1.android.isSome ↔
          Platform.android ∈ st.platforms.getD [Platform.web])) ∧
    ((buildAllPlatforms false webOkC4 pkgOkC4 androidFailC4 stC4).1.overallSuccess
        = false ∧
     Option.map (fun w => w.success)
        (buildAllPlatforms false webOkC4 pkgOkC4 androidFailC4 stC4).1.web
        = some true) := by
  constructor
  · intro isMock webCall pkgCall androidCall st
    cases isMock with
    | true =>
      by_cases hw : Platform.web ∈ st.platforms.getD [Platform.web] <;>
        by_cases ha : Platform.android ∈ st.platforms.getD [Platform.web] <;>
          simp [buildAllPlatforms, hw, ha]
    | false =>
      by_cases hw : Platform.web ∈ st.platforms.getD [Platform.web] <;>
        by_cases ha : Platform.android ∈ st.platforms.getD [Platform.web] <;>
          cases webCall with
          | error e =>
            cases pkgCall with
            | error e2 => simp [buildAllPlatforms, hw, ha]
            | ok p =>
              cases p with
              | none => simp [buildAllPlatforms, hw, ha]
              | some pkg =>
                cases androidCall with
                | error e3 => simp [buildAllPlatforms, hw, ha]
                | ok ar =>
                  cases har : ar.success <;>
                    simp [buildAllPlatforms, hw, ha, har]
          | ok w =>
            cases hws : w.success <;>
              cases pkgCall with
              | error e2 => simp [buildAllPlatforms, hw, ha, hws]
              | ok p =>
                cases p with
                | none => simp [buildAllPlatforms, hw, ha, hws]
                | some pkg =>
                  cases androidCall with
                  | error e3 => simp [buildAllPlatforms, hw, ha, hws]
                  | ok ar =>
                    cases har : ar.success <;>
                      simp [buildAllPlatforms, hw, ha, hws, har]
  · constructor
    · decide
    · decide

/-! ## Executor lemmas -/

/-- The attempt loop never touches `failureCount` (only the outer loop
writes it, and only on step failure). -/
theorem runAttempts_failureCount (gen : Nat → Nat → Option String)
    (paySetup : Nat → Nat → Except String (String × String × String))
    (payInject : String → String → String) (i : Nat) :
    ∀ (fuel : Nat) (step : PlanStep) (st : ProjectState),
      (runAttempts gen paySetup payInject i fuel step st).2.1.failureCount =
        st.failureCount := by
  intro fuel
  induction fuel with
  | zero => intro step st; rfl
  | succ n ih =>
    intro step st
    simp only [runAttempts]
    cases gen i step.retries with
    | none => simp [ih]
    | some code =>
      cases hp : isPaymentStep {step with code := some code} with
      | false => simp [hp]
      | true =>
        simp only [hp, if_true]
        cases paySetup i step.retries with
        | error m => simp [ih]
        | ok t =>
          obtain ⟨a, b, c⟩ := t
          simp

/-- Every call recorded by the attempt loop is tagged with the loop's
step index. -/
theorem runAttempts_calls_idx (gen : Nat → Nat → Option String)
    (paySetup : Nat → Nat → Except String (String × String × String))
    (payInject : String → String → String) (i : Nat) :
    ∀ (fuel : Nat) (step : PlanStep) (st : ProjectState),
      ∀ c ∈ (runAttempts gen paySetup payInject i fuel step st).2.2.2,
        c.stepIdx = i := by
  intro fuel
  induction fuel with
  | zero => intro step st c hc; simp [runAttempts] at hc
  | succ n ih =>
    intro step st c hc
    simp only [runAttempts] at hc
    cases hg : gen i step.retries with
    | none =>
      simp only [hg] at hc
      rcases List.mem_cons.mp hc with h | h
      · rw [h]
      · exact ih _ _ c h
    | some code =>
      simp only [hg] at hc
      cases hp : isPaymentStep {step with code := some code} with
      | false =>
        simp only [hp, Bool.false_eq_true, if_false] at hc
        simp at hc
        rw [hc]
      | true =>
        simp only [hp, if_true] at hc
        cases hps : paySetup i step.retries with
        | error m =>
          simp only [hps] at hc
          rcases List.mem_cons.mp hc with h | h
          · rw [h]
          rcases List.mem_cons.mp h with h2 | h2
          · rw [h2]
          · exact ih _ _ c h2
        | ok t =>
          obtain ⟨a, b, cc⟩ := t
          simp only [hps] at hc
          rcases List.mem_cons.mp hc with h | h
          · rw [h]
          · simp at h; rw [h]

/-- Per collaborator kind, the attempt loop makes at most `fuel` calls
(one synthesis call and at most one payment call per iteration). -/
theorem runAttempts_count_kind (gen : Nat → Nat → Option String)
    (paySetup : Nat → Nat → Except String (String × String × String))
    (payInject : String → String → String) (i : Nat) (k : CallKind) :
    ∀ (fuel : Nat) (step : PlanStep) (st : ProjectState),
      (runAttempts gen paySetup payInject i fuel step st).2.2.2.countP
        (fun c => c.kind == k) ≤ fuel := by
  intro fuel
  induction fuel with
  | zero => intro step st; simp [runAttempts]
  | succ n ih =>
    intro step st
    simp only [runAttempts]
    cases gen i step.retries with
    | none =>
      simp only [List.countP_cons]
      have := ih {step with retries := step.retries + 1} st
      cases k <;> simp <;> omega
    | some code =>
      cases hp : isPaymentStep {step with code := some code} with
      | false =>
        simp only [hp, Bool.false_eq_true, if_false]
        cases k <;> simp [List.countP_cons]
      | true =>
        simp only [hp, if_true]
        cases paySetup i step.retries with
        | error m =>
          simp only [List.countP_cons]
          have := ih {step with code := some code, retries := step.retries + 1} st
          cases k <;> simp <;> omega
        | ok t =>
          obtain ⟨a, b, cc⟩ := t
          cases k <;> simp [List.countP_cons]

/-- Unfolding equation for `execLoop`: already-completed steps are skipped. -/
theorem execLoop_cons_skip {gen : Nat → Nat → Option String}
    {paySetup : Nat → Nat → Except String (String × String × String)}
    {payInject : String → String → String}
    {step : PlanStep} {rest : List PlanStep} {i streak : Nat}
    {done : List PlanStep} {st : ProjectState}
    (hcomp : step.status = StepStatus.completed) :
    execLoop gen paySetup payInject (step :: rest) i streak done st =
      execLoop gen paySetup payInject rest (i + 1) streak (done ++ [step]) st := by
  simp only [execLoop, if_pos hcomp]

/-- Unfolding equation for `execLoop`: a processed step whose attempt loop
succeeded resets the streak and continues. -/
theorem execLoop_cons_ok {gen : Nat → Nat → Option String}
    {paySetup : Nat → Nat → Except String (String × String × String)}
    {payInject : String → String → String}
    {step : PlanStep} {rest : List PlanStep} {i streak : Nat}
    {done : List PlanStep} {st : ProjectState}
    {step2 : PlanStep} {st2 : ProjectState} {calls : List CallRec}
    (hncomp : ¬ step.status = StepStatus.completed)
    (hatt : runAttempts gen paySetup payInject i (maxRetries - step.retries)
        {step with status := StepStatus.in_progress} {st with currentStep := i} =
        (step2, st2, true, calls)) :
    execLoop gen paySetup payInject (step :: rest) i streak done st =
      ⟨(execLoop gen paySetup payInject rest (i + 1) 0 (done ++ [step2]) st2).state,
       calls ++ (execLoop gen paySetup payInject rest (i + 1) 0 (done ++ [step2]) st2).calls,
       (i, true) :: (execLoop gen paySetup payInject rest (i + 1) 0 (done ++ [step2]) st2).events,
       (execLoop gen paySetup payInject rest (i + 1) 0 (done ++ [step2]) st2).haltedAt⟩ := by
  simp [execLoop, if_neg hncomp, hatt]

/-- Unfolding equation for `execLoop`: a failed step that trips the circuit
breaker returns immediately. -/
theorem execLoop_cons_halt {gen : Nat → Nat → Option String}
    {paySetup : Nat → Nat → Except String (String × String × String)}
    {payInject : String → String → String}
    {step : PlanStep} {rest : List PlanStep} {i streak : Nat}
    {done : List PlanStep} {st : ProjectState}
    {step2 : PlanStep} {st2 : ProjectState} {calls : List CallRec}
    (hncomp : ¬ step.status = StepStatus.completed)
    (hatt : runAttempts gen paySetup payInject i (maxRetries - step.retries)
        {step with status := StepStatus.in_progress} {st with currentStep := i} =
        (step2, st2, false, calls))
    (hh : shouldHalt {st2 with failureCount := streak + 1} = true) :
    execLoop gen paySetup payInject (step :: rest) i streak done st =
      ⟨{st2 with failureCount := streak + 1, status := ProjStatus.failed,
                 plan := done ++ (({step2 with status := StepStatus.failed}) :: rest)},
       calls, [(i, false)], some i⟩ := by
  simp [execLoop, if_neg hncomp, hatt, hh]

/-- Unfolding equation for `execLoop`: a failed step below the breaker
threshold records the failure and continues. -/
theorem execLoop_cons_fail {gen : Nat → Nat → Option String}
    {paySetup : Nat → Nat → Except String (String × String × String)}
    {payInject : String → String → String}
    {step : PlanStep} {rest : List PlanStep} {i streak : Nat}
    {done : List PlanStep} {st : ProjectState}
    {step2 : PlanStep} {st2 : ProjectState} {calls : List CallRec}
    (hncomp : ¬ step.status = StepStatus.completed)
    (hatt : runAttempts gen paySetup payInject i (maxRetries - step.retries)
        {step with status := StepStatus.in_progress} {st with currentStep := i} =
        (step2, st2, false, calls))
    (hh : shouldHalt {st2 with failureCount := streak + 1} = false) :
    execLoop gen paySetup payInject (step :: rest) i streak done st =
      ⟨(execLoop gen paySetup payInject rest (i + 1) (streak + 1)
          (done ++ [{step2 with status := StepStatus.failed}])
          {st2 with failureCount := streak + 1}).state,
       calls ++ (execLoop gen paySetup payInject rest (i + 1) (streak + 1)
          (done ++ [{step2 with status := StepStatus.failed}])
          {st2 with failureCount := streak + 1}).calls,
       (i, false) :: (execLoop gen paySetup payInject rest (i + 1) (streak + 1)
          (done ++ [{step2 with status := StepStatus.failed}])
          {st2 with failureCount := streak + 1}).events,
       (execLoop gen paySetup payInject rest (i + 1) (streak + 1)
          (done ++ [{step2 with status := StepStatus.failed}])
          {st2 with failureCount := streak + 1}).haltedAt⟩ := by
  simp [execLoop, if_neg hncomp, hatt, hh]

/-- Every call recorded by the loop from plan index `i` on concerns a step
index at least `i`. -/
theorem execLoop_calls_lb (gen : Nat → Nat → Option String)
    (paySetup : Nat → Nat → Except String (String × String × String))
    (payInject : String → String → String) :
    ∀ (todo : List PlanStep) (i streak : Nat) (done : List PlanStep)
      (st : ProjectState) (c : CallRec),
      c ∈ (execLoop gen paySetup payInject todo i streak done st).calls →
      i ≤ c.stepIdx := by
  intro todo
  induction todo with
  | nil => intro i streak done st c hc; simp [execLoop] at hc
  | cons step rest ih =>
    intro i streak done st c hc
    by_cases hcomp : step.status = StepStatus.completed
    · rw [execLoop_cons_skip hcomp] at hc
      exact Nat.le_of_succ_le (ih (i + 1) streak (done ++ [step]) st c hc)
    · rcases hatt : runAttempts gen paySetup payInject i (maxRetries - step.retries)
        {step with status := StepStatus.in_progress} {st with currentStep := i}
        with ⟨step2, st2, ok, calls⟩
      cases ok with
      | true =>
        rw [execLoop_cons_ok hcomp hatt] at hc
        rcases List.mem_append.mp hc with h | h
        · have := runAttempts_calls_idx gen paySetup payInject i
            (maxRetries - step.retries) {step with status := StepStatus.in_progress}
            {st with currentStep := i} c (by rw [hatt]; exact h)
          omega
        · exact Nat.le_of_succ_le (ih (i + 1) 0 (done ++ [step2]) st2 c h)
      | false =>
        cases hh : shouldHalt {st2 with failureCount := streak + 1} with
        | true =>
          rw [execLoop_cons_halt hcomp hatt hh] at hc
          have := runAttempts_calls_idx gen paySetup payInject i
            (maxRetries - step.retries) {step with status := StepStatus.in_progress}
            {st with currentStep := i} c (by rw [hatt]; exact hc)
          omega
        | false =>
          rw [execLoop_cons_fail hcomp hatt hh] at hc
          rcases List.mem_append.mp hc with h | h
          · have := runAttempts_calls_idx gen paySetup payInject i
              (maxRetries - step.retries) {step with status := StepStatus.in_progress}
              {st with currentStep := i} c (by rw [hatt]; exact h)
            omega
          · exact Nat.le_of_succ_le
              (ih (i + 1) (streak + 1) (done ++ [{step2 with status := StepStatus.failed}])
                {st2 with failureCount := streak + 1} c h)

/-- Per step index and collaborator kind, the whole loop makes at most
`maxRetries` calls: each index is processed by at most one attempt loop,
which is itself bounded by its fuel. -/
theorem execLoop_count_le (gen : Nat → Nat → Option String)
    (paySetup : Nat → Nat → Except String (String × String × String))
    (payInject : String → String → String) (k : CallKind) :
    ∀ (todo : List PlanStep) (i streak : Nat) (done : List PlanStep)
      (st : ProjectState) (j : Nat),
      ((execLoop gen paySetup payInject todo i streak done st).calls.countP
        (fun c => c.stepIdx == j && c.kind == k)) ≤ maxRetries := by
  intro todo
  induction todo with
  | nil => intro i streak done st j; simp [execLoop, maxRetries]
  | cons step rest ih =>
    intro i streak done st j
    by_cases hcomp : step.status = StepStatus.completed
    · rw [execLoop_cons_skip hcomp]
      exact ih (i + 1) streak (done ++ [step]) st j
    · rcases hatt : runAttempts gen paySetup payInject i (maxRetries - step.retries)
        {step with status := StepStatus.in_progress} {st with currentStep := i}
        with ⟨step2, st2, ok, calls⟩
      have hidx : ∀ c ∈ calls, c.stepIdx = i := by
        intro c hcm
        exact runAttempts_calls_idx gen paySetup payInject i
          (maxRetries - step.retries) {step with status := StepStatus.in_progress}
          {st with currentStep := i} c (by rw [hatt]; exact hcm)
      have hcalls_le : calls.countP (fun c => c.stepIdx == j && c.kind == k) ≤ maxRetries := by
        have h1 := runAttempts_count_kind gen paySetup payInject i k
          (maxRetries - step.retries) {step with status := StepStatus.in_progress}
          {st with currentStep := i}
        rw [hatt] at h1
        refine le_trans (le_trans (List.countP_mono_left ?_) h1) (Nat.sub_le _ _)
        intro a ha hpa
        simp only [Bool.and_eq_true] at hpa
        exact hpa.2
      have hcalls_ne : j ≠ i → calls.countP (fun c => c.stepIdx == j && c.kind == k) = 0 := by
        intro hji
        refine List.countP_eq_zero.mpr ?_
        intro a ha
        have := hidx a ha
        simp only [Bool.and_eq_true, beq_iff_eq, not_and]
        intro h1
        exact absurd (h1 ▸ this) hji
      cases ok with
      | true =>
        rw [execLoop_cons_ok hcomp hatt]
        show (calls ++ (execLoop gen paySetup payInject rest (i + 1) 0
          (done ++ [step2]) st2).calls).countP
            (fun c => c.stepIdx == j && c.kind == k) ≤ maxRetries
        rw [List.countP_append]
        by_cases hji : j = i
        · subst hji
          have hrec0 : (execLoop gen paySetup payInject rest (j + 1) 0
              (done ++ [step2]) st2).calls.countP
                (fun c => c.stepIdx == j && c.kind == k) = 0 := by
            refine List.countP_eq_zero.mpr ?_
            intro a ha
            have := execLoop_calls_lb gen paySetup payInject rest (j + 1) 0
              (done ++ [step2]) st2 a ha
            simp only [Bool.and_eq_true, beq_iff_eq, not_and]
            intro h1
            omega
          rw [hrec0]
          simpa using hcalls_le
        · rw [hcalls_ne hji]
          simpa using ih (i + 1) 0 (done ++ [step2]) st2 j
      | false =>
        cases hh : shouldHalt {st2 with failureCount := streak + 1} with
        | true =>
          rw [execLoop_cons_halt hcomp hatt hh]
          exact hcalls_le
        | false =>
          rw [execLoop_cons_fail hcomp hatt hh]
          show (calls ++ (execLoop gen paySetup payInject rest (i + 1) (streak + 1)
            (done ++ [{step2 with status := StepStatus.failed}])
            {st2 with failureCount := streak + 1}).calls).countP
              (fun c => c.stepIdx == j && c.kind == k) ≤ maxRetries
          rw [List.countP_append]
          by_cases hji : j = i
          · subst hji
            have hrec0 : (execLoop gen paySetup payInject rest (j + 1) (streak + 1)
                (done ++ [{step2 with status := StepStatus.failed}])
                {st2 with failureCount := streak + 1}).calls.countP
                  (fun c => c.stepIdx == j && c.kind == k) = 0 := by
              refine List.countP_eq_zero.mpr ?_
              intro a ha
              have := execLoop_calls_lb gen paySetup payInject rest (j + 1) (streak + 1)
                (done ++ [{step2 with status := StepStatus.failed}])
                {st2 with failureCount := streak + 1} a ha
              simp only [Bool.and_eq_true, beq_iff_eq, not_and]
              intro h1
              omega
            rw [hrec0]
            simpa using hcalls_le
          · rw [hcalls_ne hji]
            simpa using ih (i + 1) (streak + 1)
              (done ++ [{step2 with status := StepStatus.failed}])
              {st2 with failureCount := streak + 1} j

/-- When the loop returns through the circuit breaker (`haltedAt = some k`),
the project is failed with `failureCount ≥ 3`, the plan beyond index `k`
is exactly the untouched remainder, and no recorded call concerns a step
index beyond `k`. -/
theorem execLoop_halt (gen : Nat → Nat → Option String)
    (paySetup : Nat → Nat → Except String (String × String × String))
    (payInject : String → String → String) :
    ∀ (todo : List PlanStep) (i streak : Nat) (done : List PlanStep)
      (st : ProjectState) (k : Nat),
      done.length = i →
      (execLoop gen paySetup payInject todo i streak done st).haltedAt = some k →
      (execLoop gen paySetup payInject todo i streak done st).state.status =
        ProjStatus.failed ∧
      3 ≤ (execLoop gen paySetup payInject todo i streak done st).state.failureCount ∧
      i ≤ k ∧
      (execLoop gen paySetup payInject todo i streak done st).state.plan.drop (k + 1) =
        todo.drop (k + 1 - i) ∧
      (execLoop gen paySetup payInject todo i streak done st).calls.countP
        (fun c => decide (k < c.stepIdx)) = 0 := by
  intro todo
  induction todo with
  | nil => intro i streak done st k hlen hhalt; simp [execLoop] at hhalt
  | cons step rest ih =>
    intro i streak done st k hlen hhalt
    by_cases hcomp : step.status = StepStatus.completed
    · rw [execLoop_cons_skip hcomp] at hhalt ⊢
      have hlen2 : (done ++ [step]).length = i + 1 := by simp [hlen]
      obtain ⟨h1, h2, h3, h4, h5⟩ := ih (i + 1) streak (done ++ [step]) st k hlen2 hhalt
      refine ⟨h1, h2, by omega, ?_, h5⟩
      have e1 : k + 1 - i = (k - i) + 1 := by omega
      have e2 : k - i = k + 1 - (i + 1) := by omega
      rw [e1, List.drop_succ_cons, e2]
      exact h4
    · rcases hatt : runAttempts gen paySetup payInject i (maxRetries - step.retries)
        {step with status := StepStatus.in_progress} {st with currentStep := i}
        with ⟨step2, st2, ok, calls⟩
      have hidx : ∀ c ∈ calls, c.stepIdx = i := by
        intro c hcm
        exact runAttempts_calls_idx gen paySetup payInject i
          (maxRetries - step.retries) {step with status := StepStatus.in_progress}
          {st with currentStep := i} c (by rw [hatt]; exact hcm)
      cases ok with
      | true =>
        rw [execLoop_cons_ok hcomp hatt] at hhalt ⊢
        have hlen2 : (done ++ [step2]).length = i + 1 := by simp [hlen]
        obtain ⟨h1, h2, h3, h4, h5⟩ := ih (i + 1) 0 (done ++ [step2]) st2 k hlen2 hhalt
        refine ⟨h1, h2, by omega, ?_, ?_⟩
        · have e1 : k + 1 - i = (k - i) + 1 := by omega
          have e2 : k - i = k + 1 - (i + 1) := by omega
          rw [e1, List.drop_succ_cons, e2]
          exact h4
        · show (calls ++ (execLoop gen paySetup payInject rest (i + 1) 0
            (done ++ [step2]) st2).calls).countP (fun c => decide (k < c.stepIdx)) = 0
          rw [List.countP_append, h5]
          have : calls.countP (fun c => decide (k < c.stepIdx)) = 0 := by
            refine List.countP_eq_zero.mpr ?_
            intro a ha
            have := hidx a ha
            simp only [decide_eq_true_eq]
            omega
          rw [this]
      | false =>
        cases hh : shouldHalt {st2 with failureCount := streak + 1} with
        | true =>
          rw [execLoop_cons_halt hcomp hatt hh] at hhalt ⊢
          have hk : i = k := by
            have := Option.some.inj hhalt
            exact this
          subst hk
          simp only [shouldHalt, maxConsecutiveFailures, decide_eq_true_eq] at hh
          refine ⟨rfl, ?_, le_refl i, ?_, ?_⟩
          · exact hh
          · show (done ++ (({step2 with status := StepStatus.failed}) :: rest)).drop (i + 1) =
              (step :: rest).drop (i + 1 - i)
            have e1 : i + 1 - i = 1 := by omega
            have e2 : i + 1 = done.length + 1 := by omega
            rw [e1, e2, List.drop_append]
            rfl
          · refine List.countP_eq_zero.mpr ?_
            intro a ha
            have := hidx a ha
            simp only [decide_eq_true_eq]
            omega
        | false =>
          rw [execLoop_cons_fail hcomp hatt hh] at hhalt ⊢
          have hlen2 : (done ++ [{step2 with status := StepStatus.failed}]).length = i + 1 := by
            simp [hlen]
          obtain ⟨h1, h2, h3, h4, h5⟩ := ih (i + 1) (streak + 1)
            (done ++ [{step2 with status := StepStatus.failed}])
            {st2 with failureCount := streak + 1} k hlen2 hhalt
          refine ⟨h1, h2, by omega, ?_, ?_⟩
          · have e1 : k + 1 - i = (k - i) + 1 := by omega
            have e2 : k - i = k + 1 - (i + 1) := by omega
            rw [e1, List.drop_succ_cons, e2]
            exact h4
          · show (calls ++ (execLoop gen paySetup payInject rest (i + 1) (streak + 1)
              (done ++ [{step2 with status := StepStatus.failed}])
              {st2 with failureCount := streak + 1}).calls).countP
                (fun c => decide (k < c.stepIdx)) = 0
            rw [List.countP_append, h5]
            have : calls.countP (fun c => decide (k < c.stepIdx)) = 0 := by
              refine List.countP_eq_zero.mpr ?_
              intro a ha
              have := hidx a ha
              simp only [decide_eq_true_eq]
              omega
            rw [this]

/-- A step whose status is already `completed` when the loop reaches it is
skipped: no collaborator call is ever recorded for its index. -/
theorem execLoop_completed_skipped (gen : Nat → Nat → Option String)
    (paySetup : Nat → Nat → Except String (String × String × String))
    (payInject : String → String → String) :
    ∀ (todo : List PlanStep) (i streak : Nat) (done : List PlanStep)
      (st : ProjectState) (j : Nat) (s : PlanStep),
      todo[j]? = some s → s.status = StepStatus.completed →
      ∀ c ∈ (execLoop gen paySetup payInject todo i streak done st).calls,
        c.stepIdx ≠ i + j := by
  intro todo
  induction todo with
  | nil => intro i streak done st j s hj; simp at hj
  | cons step rest ih =>
    intro i streak done st j s hj hs c hc
    by_cases hcomp : step.status = StepStatus.completed
    · rw [execLoop_cons_skip hcomp] at hc
      cases j with
      | zero =>
        have := execLoop_calls_lb gen paySetup payInject rest (i + 1) streak
          (done ++ [step]) st c hc
        omega
      | succ jj =>
        have hj2 : rest[jj]? = some s := by simpa using hj
        have := ih (i + 1) streak (done ++ [step]) st jj s hj2 hs c hc
        omega
    · cases j with
      | zero =>
        exfalso
        have : step = s := by simpa using hj
        exact hcomp (this ▸ hs)
      | succ jj =>
        have hj2 : rest[jj]? = some s := by simpa using hj
        rcases hatt : runAttempts gen paySetup payInject i (maxRetries - step.retries)
          {step with status := StepStatus.in_progress} {st with currentStep := i}
          with ⟨step2, st2, ok, calls⟩
        have hidx : ∀ c ∈ calls, c.stepIdx = i := by
          intro c hcm
          exact runAttempts_calls_idx gen paySetup payInject i
            (maxRetries - step.retries) {step with status := StepStatus.in_progress}
            {st with currentStep := i} c (by rw [hatt]; exact hcm)
        cases ok with
        | true =>
          rw [execLoop_cons_ok hcomp hatt] at hc
          rcases List.mem_append.mp hc with h | h
          · have := hidx c h
            omega
          · have := ih (i + 1) 0 (done ++ [step2]) st2 jj s hj2 hs c h
            omega
        | false =>
          cases hh : shouldHalt {st2 with failureCount := streak + 1} with
          | true =>
            rw [execLoop_cons_halt hcomp hatt hh] at hc
            have := hidx c hc
            omega
          | false =>
            rw [execLoop_cons_fail hcomp hatt hh] at hc
            rcases List.mem_append.mp hc with h | h
            · have := hidx c h
              omega
            · have := ih (i + 1) (streak + 1)
                (done ++ [{step2 with status := StepStatus.failed}])
                {st2 with failureCount := streak + 1} jj s hj2 hs c h
              omega

/-- One step of the failure-streak recurrence: on success the streak
resets but the stored `failureCount` is left alone; on failure both become
the previous streak plus one. -/
def streakFcStep (p : Nat × Nat) (ok : Bool) : Nat × Nat :=
  if ok then (0, p.2) else (p.1 + 1, p.1 + 1)

/-- The final `failureCount` equals the fold of the streak recurrence over
the per-step outcome events of the run. -/
theorem execLoop_failureCount_fold (gen : Nat → Nat → Option String)
    (paySetup : Nat → Nat → Except String (String × String × String))
    (payInject : String → String → String) :
    ∀ (todo : List PlanStep) (i streak : Nat) (done : List PlanStep)
      (st : ProjectState),
      (execLoop gen paySetup payInject todo i streak done st).state.failureCount =
        (((execLoop gen paySetup payInject todo i streak done st).events.map
            Prod.snd).foldl streakFcStep (streak, st.failureCount)).2 := by
  intro todo
  induction todo with
  | nil =>
    intro i streak done st
    simp [execLoop, apply_ite ProjectState.failureCount]
  | cons step rest ih =>
    intro i streak done st
    by_cases hcomp : step.status = StepStatus.completed
    · rw [execLoop_cons_skip hcomp]
      exact ih (i + 1) streak (done ++ [step]) st
    · rcases hatt : runAttempts gen paySetup payInject i (maxRetries - step.retries)
        {step with status := StepStatus.in_progress} {st with currentStep := i}
        with ⟨step2, st2, ok, calls⟩
      have hfc : st2.failureCount = st.failureCount := by
        have := runAttempts_failureCount gen paySetup payInject i
          (maxRetries - step.retries) {step with status := StepStatus.in_progress}
          {st with currentStep := i}
        rw [hatt] at this
        exact this
      cases ok with
      | true =>
        rw [execLoop_cons_ok hcomp hatt]
        show (execLoop gen paySetup payInject rest (i + 1) 0
            (done ++ [step2]) st2).state.failureCount =
          ((((i, true) :: (execLoop gen paySetup payInject rest (i + 1) 0
              (done ++ [step2]) st2).events).map Prod.snd).foldl streakFcStep
            (streak, st.failureCount)).2
        rw [List.map_cons, List.foldl_cons]
        have : streakFcStep (streak, st.failureCount) true = (0, st2.failureCount) := by
          simp [streakFcStep, hfc]
        rw [this]
        exact ih (i + 1) 0 (done ++ [step2]) st2
      | false =>
        cases hh : shouldHalt {st2 with failureCount := streak + 1} with
        | true =>
          rw [execLoop_cons_halt hcomp hatt hh]
          simp [streakFcStep]
        | false =>
          rw [execLoop_cons_fail hcomp hatt hh]
          show (execLoop gen paySetup payInject rest (i + 1) (streak + 1)
              (done ++ [{step2 with status := StepStatus.failed}])
              {st2 with failureCount := streak + 1}).state.failureCount =
            ((((i, false) :: (execLoop gen paySetup payInject rest (i + 1) (streak + 1)
                (done ++ [{step2 with status := StepStatus.failed}])
                {st2 with failureCount := streak + 1}).events).map Prod.snd).foldl
              streakFcStep (streak, st.failureCount)).2
          rw [List.map_cons, List.foldl_cons]
          have : streakFcStep (streak, st.failureCount) false = (streak + 1, streak + 1) := by
            simp [streakFcStep]
          rw [this]
          exact ih (i + 1) (streak + 1)
            (done ++ [{step2 with status := StepStatus.failed}])
            {st2 with failureCount := streak + 1}

/-- Under a synthesis oracle that always fails for step `i`, the attempt
loop burns all its fuel, adds it to `retries`, leaves the state alone and
reports failure. -/
theorem runAttempts_fail_parts (gen : Nat → Nat → Option String)
    (paySetup : Nat → Nat → Except String (String × String × String))
    (payInject : String → String → String) (i : Nat)
    (hgen : ∀ r, gen i r = none) :
    ∀ (fuel : Nat) (step : PlanStep) (st : ProjectState),
      (runAttempts gen paySetup payInject i fuel step st).1 =
        {step with retries := step.retries + fuel} ∧
      (runAttempts gen paySetup payInject i fuel step st).2.1 = st ∧
      (runAttempts gen paySetup payInject i fuel step st).2.2.1 = false := by
  intro fuel
  induction fuel with
  | zero => intro step st; exact ⟨rfl, rfl, rfl⟩
  | succ n ih =>
    intro step st
    simp only [runAttempts, hgen]
    obtain ⟨e1, e2, e3⟩ := ih {step with retries := step.retries + 1} st
    refine ⟨?_, e2, e3⟩
    rw [e1]
    simp only [PlanStep.mk.injEq, and_true, true_and]
    omega

/-- A pending, fresh step whose synthesis always fails exhausts its three
attempts; below the breaker threshold the loop records the failure and
moves on. -/
theorem execLoop_exhaust_cont (gen : Nat → Nat → Option String)
    (paySetup : Nat → Nat → Except String (String × String × String))
    (payInject : String → String → String)
    (step : PlanStep) (rest : List PlanStep) (i streak : Nat)
    (done : List PlanStep) (st : ProjectState)
    (hgen : ∀ r, gen i r = none)
    (hst : step.status = StepStatus.pending) (hr : step.retries = 0)
    (hlt : streak + 1 < 3) :
    execLoop gen paySetup payInject (step :: rest) i streak done st =
      ⟨(execLoop gen paySetup payInject rest (i + 1) (streak + 1)
          (done ++ [{step with status := StepStatus.failed, retries := 3}])
          {st with currentStep := i, failureCount := streak + 1}).state,
       (runAttempts gen paySetup payInject i (maxRetries - step.retries)
          {step with status := StepStatus.in_progress} {st with currentStep := i}).2.2.2 ++
         (execLoop gen paySetup payInject rest (i + 1) (streak + 1)
            (done ++ [{step with status := StepStatus.failed, retries := 3}])
            {st with currentStep := i, failureCount := streak + 1}).calls,
       (i, false) :: (execLoop gen paySetup payInject rest (i + 1) (streak + 1)
          (done ++ [{step with status := StepStatus.failed, retries := 3}])
          {st with currentStep := i, failureCount := streak + 1}).events,
       (execLoop gen paySetup payInject rest (i + 1) (streak + 1)
          (done ++ [{step with status := StepStatus.failed, retries := 3}])
          {st with currentStep := i, failureCount := streak + 1}).haltedAt⟩ := by
  obtain ⟨e1, e2, e3⟩ := runAttempts_fail_parts gen paySetup payInject i hgen
    (maxRetries - step.retries) {step with status := StepStatus.in_progress}
    {st with currentStep := i}
  rcases hatt : runAttempts gen paySetup payInject i (maxRetries - step.retries)
    {step with status := StepStatus.in_progress} {st with currentStep := i}
    with ⟨a, b, ok, cl⟩
  rw [hatt] at e1 e2 e3
  have ea : a = {step with status := StepStatus.in_progress,
                           retries := step.retries + (maxRetries - step.retries)} := e1
  have eb : b = {st with currentStep := i} := e2
  have ec : ok = false := e3
  subst ea; subst eb; subst ec
  have hretr : step.retries + (maxRetries - step.retries) = 3 := by
    rw [hr]; rfl
  rw [hretr] at hatt
  have hncomp : ¬ step.status = StepStatus.completed := by rw [hst]; intro h; cases h
  have hh : shouldHalt {({st with currentStep := i}) with failureCount := streak + 1} =
      false := by
    simp only [shouldHalt, maxConsecutiveFailures, decide_eq_false_iff_not]
    show ¬ (3 ≤ streak + 1)
    omega
  rw [execLoop_cons_fail hncomp hatt hh]

/-- A pending, fresh step whose synthesis always fails exhausts its three
attempts; at the breaker threshold the loop marks the project failed and
returns immediately, leaving the remaining steps untouched. -/
theorem execLoop_exhaust_halt (gen : Nat → Nat → Option String)
    (paySetup : Nat → Nat → Except String (String × String × String))
    (payInject : String → String → String)
    (step : PlanStep) (rest : List PlanStep) (i streak : Nat)
    (done : List PlanStep) (st : ProjectState)
    (hgen : ∀ r, gen i r = none)
    (hst : step.status = StepStatus.pending) (hr : step.retries = 0)
    (hge : 3 ≤ streak + 1) :
    execLoop gen paySetup payInject (step :: rest) i streak done st =
      ⟨{st with currentStep := i, failureCount := streak + 1,
                status := ProjStatus.failed,
                plan := done ++ (({step with status := StepStatus.failed, retries := 3}) :: rest)},
       (runAttempts gen paySetup payInject i (maxRetries - step.retries)
          {step with status := StepStatus.in_progress} {st with currentStep := i}).2.2.2,
       [(i, false)], some i⟩ := by
  obtain ⟨e1, e2, e3⟩ := runAttempts_fail_parts gen paySetup payInject i hgen
    (maxRetries - step.retries) {step with status := StepStatus.in_progress}
    {st with currentStep := i}
  rcases hatt : runAttempts gen paySetup payInject i (maxRetries - step.retries)
    {step with status := StepStatus.in_progress} {st with currentStep := i}
    with ⟨a, b, ok, cl⟩
  rw [hatt] at e1 e2 e3
  have ea : a = {step with status := StepStatus.in_progress,
                           retries := step.retries + (maxRetries - step.retries)} := e1
  have eb : b = {st with currentStep := i} := e2
  have ec : ok = false := e3
  subst ea; subst eb; subst ec
  have hretr : step.retries + (maxRetries - step.retries) = 3 := by
    rw [hr]; rfl
  rw [hretr] at hatt
  have hncomp : ¬ step.status = StepStatus.completed := by rw [hst]; intro h; cases h
  have hh : shouldHalt {({st with currentStep := i}) with failureCount := streak + 1} =
      true := by
    simp only [shouldHalt, maxConsecutiveFailures, decide_eq_true_eq]
    show 3 ≤ streak + 1
    omega
  rw [execLoop_cons_halt hncomp hatt hh]

/-! ## Executor fixtures -/

/-- A fresh pending plan step. -/
def mkStep (n : String) : PlanStep :=
  ⟨n, "Build " ++ n, "a step", StepStatus.pending, none, 0⟩

/-- Synthesis oracle that always fails. -/
def genNone : Nat → Nat → Option String := fun _ _ => none

/-- Synthesis oracle that always succeeds. -/
def genAll : Nat → Nat → Option String := fun _ _ => some "code"

/-- Synthesis oracle failing only for the first step. -/
def genFirstFails : Nat → Nat → Option String :=
  fun i _ => if i = 0 then none else some "x"

/-- Payment oracle that always throws. -/
def payNone : Nat → Nat → Except String (String × String × String) :=
  fun _ _ => .error "stripe unavailable"

/-- Trivial payment-link injector. -/
def injId : String → String → String := fun code _ => code

/-- A four-step all-pending plan. -/
def planHalt : List PlanStep :=
  [mkStep "s1", mkStep "s2", mkStep "s3", mkStep "s4"]

/-- State with the four-step plan. -/
def stHalt : ProjectState := {baseState with plan := planHalt}

/-- A two-step all-pending plan. -/
def planTwo : List PlanStep := [mkStep "s1", mkStep "s2"]

/-- State with the two-step plan. -/
def stTwo : ProjectState := {baseState with plan := planTwo}

/-! ## Claim C1 -/

/-- Claim C1: `shouldHalt` is exactly `failureCount ≥ 3`; within one
`executeProject` run no step's loop makes more than `maxRetries = 3`
synthesis calls (nor more than 3 payment-setup calls); and when the
circuit breaker fires at step `k`, the run returns immediately with
`status = failed`, `failureCount ≥ 3`, the plan after `k` untouched, and
no recorded call beyond index `k`. -/
theorem executor_retry_circuit_breaker :
    (∀ st : ProjectState, shouldHalt st = true ↔ 3 ≤ st.failureCount) ∧
    (∀ (gen : Nat → Nat → Option String)
       (paySetup : Nat → Nat → Except String (String × String × String))
       (payInject : String → String → String) (st : ProjectState)
       (j : Nat) (k : CallKind),
       ((executeProject gen paySetup payInject st).calls.countP
         (fun c => c.stepIdx == j && c.kind == k)) ≤ maxRetries) ∧
    (∀ (gen : Nat → Nat → Option String)
       (paySetup : Nat → Nat → Except String (String × String × String))
       (payInject : String → String → String) (st : ProjectState) (k : Nat),
       (executeProject gen paySetup payInject st).haltedAt = some k →
       (executeProject gen paySetup payInject st).state.status = ProjStatus.failed ∧
       3 ≤ (executeProject gen paySetup payInject st).state.failureCount ∧
       (executeProject gen paySetup payInject st).state.plan.drop (k + 1) =
         st.plan.drop (k + 1) ∧
       (executeProject gen paySetup payInject st).calls.countP
         (fun c => decide (k < c.stepIdx)) = 0) := by
  refine ⟨?_, ?_, ?_⟩
  · intro st
    simp [shouldHalt, maxConsecutiveFailures]
  · intro gen paySetup payInject st j k
    exact execLoop_count_le gen paySetup payInject k st.plan 0 0 []
      {st with status := ProjStatus.coding} j
  · intro gen paySetup payInject st k hk
    obtain ⟨h1, h2, _h3, h4, h5⟩ := execLoop_halt gen paySetup payInject st.plan 0 0 []
      {st with status := ProjStatus.coding} k rfl hk
    exact ⟨h1, h2, h4, h5⟩

/-- Witness for C1: with a four-step plan and an always-failing synthesizer,
the breaker fires at index 2; the instantiated theorem yields the halt
facts, and the plan's fourth step is never touched. -/
theorem executor_retry_circuit_breaker_witness :
    (executeProject genNone payNone injId stHalt).haltedAt = some 2 ∧
    ((executeProject genNone payNone injId stHalt).state.status = ProjStatus.failed ∧
     3 ≤ (executeProject genNone payNone injId stHalt).state.failureCount ∧
     (executeProject genNone payNone injId stHalt).state.plan.drop 3 =
       stHalt.plan.drop 3 ∧
     (executeProject genNone payNone injId stHalt).calls.countP
       (fun c => decide (2 < c.stepIdx)) = 0) :=
  ⟨by decide,
   executor_retry_circuit_breaker.2.2 genNone payNone injId stHalt 2 (by decide)⟩

/-! ## Claim C3 -/

/-- Claim C3 counterexample: with a two-step plan where step 0 exhausts its
retries and step 1 then succeeds, the run ends right after a step success,
yet the state's `failureCount` field is 1, not 0 — the field is never
written on success, only the run-local streak counter resets. -/
theorem failureStreak_counterexample :
    (executeProject genFirstFails payNone injId stTwo).events =
      [(0, false), (1, true)] ∧
    (executeProject genFirstFails payNone injId stTwo).state.plan.map
      PlanStep.status = [StepStatus.failed, StepStatus.completed] ∧
    (executeProject genFirstFails payNone injId stTwo).state.failureCount = 1 := by
  refine ⟨by decide, by decide, by decide⟩

/-- Claim C3 amended: along a run, the local consecutive-failure streak
starts at 0, resets to 0 on each step success and grows by exactly 1 on
each exhausted-retry step failure; `failureCount` is written only on step
failures, where it is set to the new streak value (so it increases by
exactly 1 per failure within a streak), and a step success leaves the
stored field unchanged.  Formally the final `failureCount` is the fold of
`streakFcStep` over the run's step outcomes. -/
theorem failureStreak_fold (gen : Nat → Nat → Option String)
    (paySetup : Nat → Nat → Except String (String × String × String))
    (payInject : String → String → String) (st : ProjectState) :
    (executeProject gen paySetup payInject st).state.failureCount =
      (((executeProject gen paySetup payInject st).events.map Prod.snd).foldl
        streakFcStep (0, st.failureCount)).2 :=
  execLoop_failureCount_fold gen paySetup payInject st.plan 0 0 []
    {st with status := ProjStatus.coding}

/-! ## Claim C8 -/

/-- Claim C8: `executeProject` records no collaborator call — in particular
no Coder call — for a plan index whose step is already `completed` when
the run starts. -/
theorem executeProject_idempotent_resume (gen : Nat → Nat → Option String)
    (paySetup : Nat → Nat → Except String (String × String × String))
    (payInject : String → String → String) (st : ProjectState)
    (i : Nat) (s : PlanStep)
    (hi : st.plan[i]? = some s) (hs : s.status = StepStatus.completed) :
    (executeProject gen paySetup payInject st).calls.countP
      (fun c => c.stepIdx == i) = 0 := by
  refine List.countP_eq_zero.mpr ?_
  intro c hc
  have := execLoop_completed_skipped gen paySetup payInject st.plan 0 0 []
    {st with status := ProjStatus.coding} i s hi hs c hc
  simp only [beq_iff_eq]
  omega

/-- Step 1 already completed, used by the C8 witness. -/
def stepDone : PlanStep :=
  ⟨"s1", "Build s1", "a step", StepStatus.completed, some "old code", 0⟩

/-- Resume state: step 1 completed, step 2 pending. -/
def stResume : ProjectState := {baseState with plan := [stepDone, mkStep "s2"]}

/-- Witness for C8: resuming with step 1 completed, the Coder is invoked
for step 2 but never again for step 1. -/
theorem executeProject_idempotent_resume_witness :
    stResume.plan[0]? = some stepDone ∧
    stepDone.status = StepStatus.completed ∧
    (executeProject genAll payNone injId stResume).calls.countP
      (fun c => c.stepIdx == 0) = 0 ∧
    (executeProject genAll payNone injId stResume).calls.countP
      (fun c => c.stepIdx == 1) = 1 :=
  ⟨by decide, by decide,
   executeProject_idempotent_resume genAll payNone injId stResume 0 stepDone
     (by decide) (by decide),
   by decide⟩

/-! ## Claim C9 -/

/-- Claim C9 counterexample: with a two-step plan and the first
non-completed step's synthesis failing all 3 attempts (here every
synthesis call fails), the run does NOT stop after that step:
`failureCount` ends at 2, not 3, the second step is attempted (a Coder
call with index 1 is recorded) and ends `failed`, not `pending`.  The
breaker counts consecutive failed steps, not failed attempts. -/
theorem single_exhaustion_counterexample :
    (executeProject genNone payNone injId stTwo).state.failureCount = 2 ∧
    (executeProject genNone payNone injId stTwo).state.plan.map PlanStep.status =
      [StepStatus.failed, StepStatus.failed] ∧
    (⟨CallKind.coder, 1, 0⟩ : CallRec) ∈
      (executeProject genNone payNone injId stTwo).calls ∧
    (executeProject genNone payNone injId stTwo).haltedAt = none := by
  refine ⟨by decide, by decide, by decide, by decide⟩

/-- Claim C9 amended: when the first THREE non-completed steps each exhaust
all 3 synthesis attempts (fresh pending steps, synthesis failing for
indices 0, 1, 2), `executeProject` marks those three steps failed, halts
with `status = failed` and `failureCount = 3` at index 2, leaves every
later step untouched (hence still pending), and records no call for any
step index beyond 2. -/
theorem three_exhausted_steps_halt (gen : Nat → Nat → Option String)
    (paySetup : Nat → Nat → Except String (String × String × String))
    (payInject : String → String → String)
    (s0 s1 s2 : PlanStep) (rest : List PlanStep) (st : ProjectState)
    (hplan : st.plan = s0 :: s1 :: s2 :: rest)
    (h0s : s0.status = StepStatus.pending) (h0r : s0.retries = 0)
    (h1s : s1.status = StepStatus.pending) (h1r : s1.retries = 0)
    (h2s : s2.status = StepStatus.pending) (h2r : s2.retries = 0)
    (hg0 : ∀ r, gen 0 r = none) (hg1 : ∀ r, gen 1 r = none)
    (hg2 : ∀ r, gen 2 r = none) :
    (executeProject gen paySetup payInject st).haltedAt = some 2 ∧
    (executeProject gen paySetup payInject st).state.status = ProjStatus.failed ∧
    (executeProject gen paySetup payInject st).state.failureCount = 3 ∧
    (executeProject gen paySetup payInject st).state.plan.map PlanStep.status =
      [StepStatus.failed, StepStatus.failed, StepStatus.failed] ++
        rest.map PlanStep.status ∧
    (executeProject gen paySetup payInject st).state.plan.drop 3 = rest ∧
    (executeProject gen paySetup payInject st).calls.countP
      (fun c => decide (2 < c.stepIdx)) = 0 := by
  have hE : executeProject gen paySetup payInject st =
      execLoop gen paySetup payInject (s0 :: s1 :: s2 :: rest) 0 0 []
        {st with status := ProjStatus.coding} := by
    show execLoop gen paySetup payInject st.plan 0 0 []
      {st with status := ProjStatus.coding} = _
    rw [hplan]
  have h0 := execLoop_exhaust_cont gen paySetup payInject s0 (s1 :: s2 :: rest) 0 0 []
    {st with status := ProjStatus.coding} hg0 h0s h0r (by omega)
  have h1 := execLoop_exhaust_cont gen paySetup payInject s1 (s2 :: rest) 1 1
    [{s0 with status := StepStatus.failed, retries := 3}]
    {st with status := ProjStatus.coding, currentStep := 0, failureCount := 1}
    hg1 h1s h1r (by omega)
  have h2 := execLoop_exhaust_halt gen paySetup payInject s2 rest 2 2
    [{s0 with status := StepStatus.failed, retries := 3},
     {s1 with status := StepStatus.failed, retries := 3}]
    {st with status := ProjStatus.coding, currentStep := 1, failureCount := 2}
    hg2 h2s h2r (by omega)
  have hfull := hE.trans h0
  simp only [Nat.zero_add, List.nil_append] at hfull
  rw [h1] at hfull
  norm_num [List.singleton_append] at hfull
  rw [h2] at hfull
  have hH : (executeProject gen paySetup payInject st).haltedAt = some 2 := by
    rw [hfull]
  have hcnt := (execLoop_halt gen paySetup payInject st.plan 0 0 []
    {st with status := ProjStatus.coding} 2 rfl hH).2.2.2.2
  refine ⟨hH, ?_, ?_, ?_, ?_, hcnt⟩
  · rw [hfull]
  · rw [hfull]
  · rw [hfull]
    simp
  · rw [hfull]
    simp

/-- Witness for the amended C9 at the concrete four-step plan: the first
three steps exhaust, the breaker fires at index 2, the fourth step stays
pending. -/
theorem three_exhausted_steps_halt_witness :
    stHalt.plan = mkStep "s1" :: mkStep "s2" :: mkStep "s3" :: [mkStep "s4"] ∧
    ((executeProject genNone payNone injId stHalt).haltedAt = some 2 ∧
     (executeProject genNone payNone injId stHalt).state.status =
       ProjStatus.failed ∧
     (executeProject genNone payNone injId stHalt).state.failureCount = 3 ∧
     (executeProject genNone payNone injId stHalt).state.plan.map PlanStep.status =
       [StepStatus.failed, StepStatus.failed, StepStatus.failed] ++
         [mkStep "s4"].map PlanStep.status ∧
     (executeProject genNone payNone injId stHalt).state.plan.drop 3 =
       [mkStep "s4"] ∧
     (executeProject genNone payNone injId stHalt).calls.countP
       (fun c => decide (2 < c.stepIdx)) = 0) :=
  ⟨rfl,
   three_exhausted_steps_halt genNone payNone injId
     (mkStep "s1") (mkStep "s2") (mkStep "s3") [mkStep "s4"] stHalt
     rfl rfl rfl rfl rfl rfl rfl
     (fun _r => rfl) (fun _r => rfl) (fun _r => rfl)⟩

/-! ## Claim C5 -/

/-- Claim C5: the `approveDeployment` guards are side-effect free.  For an
orderId absent from the registry it fails with the not-found error, no
project state and no effects; for a registered project not in
`awaiting_approval` it fails with the invalid-state error, returns the
project state unchanged and performs no effects. -/
theorem approveDeployment_guards (registry : String → Option ProjectState)
    (webProdCall : VercelDeployOutcome) (playStoreCall : ValidationResult)
    (liveSetup : Except String (String × String × String)) (orderId : String) :
    (registry orderId = none →
      approveDeployment registry webProdCall playStoreCall liveSetup orderId =
        (⟨false, none, some "Project not found"⟩, none, [])) ∧
    (∀ st : ProjectState, registry orderId = some st →
      st.status ≠ ProjStatus.awaiting_approval →
      approveDeployment registry webProdCall playStoreCall liveSetup orderId =
        (⟨false, none,
          some ("Project is in " ++ statusText st.status ++
                " state, not awaiting approval")⟩, some st, [])) := by
  constructor
  · intro h
    simp [approveDeployment, h]
  · intro st h hs
    simp [approveDeployment, h, hs]

/-- Registered project that is still coding, used by the C5 witness. -/
def stNotAwaiting : ProjectState := {baseState with status := ProjStatus.coding}

/-- Two-entry registry for the C5 witness. -/
def regC5 : String → Option ProjectState :=
  fun orderId => if orderId = "known" then some stNotAwaiting else none

/-- A successful production web-deploy outcome. -/
def webProdOk : VercelDeployOutcome :=
  ⟨true, some "https://demo.vercel.app", none, none⟩

/-- Witness for C5 at a concrete registry: unknown id gives NotFound with
no effects; a coding project gives the invalid-state failure, unchanged
state, no effects. -/
theorem approveDeployment_guards_witness :
    (regC5 "missing" = none ∧
      approveDeployment regC5 webProdOk vPass (.ok ("p", "r", "l")) "missing" =
        (⟨false, none, some "Project not found"⟩, none, [])) ∧
    (regC5 "known" = some stNotAwaiting ∧
      stNotAwaiting.status ≠ ProjStatus.awaiting_approval ∧
      approveDeployment regC5 webProdOk vPass (.ok ("p", "r", "l")) "known" =
        (⟨false, none,
          some ("Project is in " ++ statusText stNotAwaiting.status ++
                " state, not awaiting approval")⟩, some stNotAwaiting, [])) :=
  ⟨⟨by decide,
    (approveDeployment_guards regC5 webProdOk vPass (.ok ("p", "r", "l"))
      "missing").1 (by decide)⟩,
   ⟨by decide, by decide,
    (approveDeployment_guards regC5 webProdOk vPass (.ok ("p", "r", "l"))
      "known").2 stNotAwaiting (by decide) (by decide)⟩⟩

/-! ## Claim C10 -/

/-- Claim C10: once the guards pass, `approveDeployment` always runs the
legacy `Executor.deployProject` (after the per-platform production
deploys); and since that legacy path sets `status = 'completed'` when it
succeeds, a web-only project whose production deploy failed ends with
`status = completed` while `approveDeployment` itself returns
`success = false` (with the effect trace `deployWeb, legacyDeploy,
notifyError` in that order). -/
theorem approveDeployment_legacy_deploy :
    (∀ (registry : String → Option ProjectState)
       (webProdCall : VercelDeployOutcome) (playStoreCall : ValidationResult)
       (liveSetup : Except String (String × String × String))
       (orderId : String) (st : ProjectState),
       registry orderId = some st → st.status = ProjStatus.awaiting_approval →
       Effect.legacyDeploy ∈
         (approveDeployment registry webProdCall playStoreCall liveSetup
           orderId).2.2) ∧
    (∀ (registry : String → Option ProjectState)
       (webProdCall : VercelDeployOutcome) (playStoreCall : ValidationResult)
       (liveSetup : Except String (String × String × String))
       (orderId : String) (st : ProjectState),
       registry orderId = some st → st.status = ProjStatus.awaiting_approval →
       st.platforms = some [Platform.web] → webProdCall.success = false →
       st.stripeProductId = none →
       (approveDeployment registry webProdCall playStoreCall liveSetup
          orderId).2.2 = [Effect.deployWeb, Effect.legacyDeploy, Effect.notifyError] ∧
       (approveDeployment registry webProdCall playStoreCall liveSetup
          orderId).1.success = false ∧
       (approveDeployment registry webProdCall playStoreCall liveSetup
          orderId).2.1.map ProjectState.status = some ProjStatus.completed) := by
  constructor
  · intro registry webProdCall playStoreCall liveSetup orderId st h hs
    by_cases hw : Platform.web ∈ st.platforms.getD [Platform.web] <;>
      by_cases ha : Platform.android ∈ st.platforms.getD [Platform.web] <;>
        cases hps : webProdCall.success <;>
          cases hurl : webProdCall.previewUrl <;>
            cases hpp : playStoreCall.passed <;>
              cases hsp : st.stripeProductId <;>
                rcases liveSetup with m | ⟨p1, p2, p3⟩ <;>
                  simp [approveDeployment, h, hs, hw, ha, deployWebProduction,
                    deployAndroidProduction, deployProject, hps, hurl, hpp, hsp]
  · intro registry webProdCall playStoreCall liveSetup orderId st h hs hpl hweb hsp
    refine ⟨?_, ?_, ?_⟩ <;>
      simp [approveDeployment, h, hs, hpl, deployWebProduction,
        deployAndroidProduction, deployProject, hweb, hsp]

/-- Project awaiting approval on the web platform only, for the C10
witness. -/
def stC10 : ProjectState :=
  {baseState with status := ProjStatus.awaiting_approval,
                  platforms := some [Platform.web]}

/-- Registry holding only `stC10`, for the C10 witness. -/
def regC10 : String → Option ProjectState :=
  fun orderId => if orderId = "order-1" then some stC10 else none

/-- A failed production web-deploy outcome. -/
def webProdFail : VercelDeployOutcome :=
  ⟨false, none, none, some "vercel production deploy failed"⟩

/-- Witness for C10: web production deploy fails, yet the legacy deploy
runs and leaves the project `completed` while the call reports failure. -/
theorem approveDeployment_legacy_deploy_witness :
    regC10 "order-1" = some stC10 ∧
    stC10.status = ProjStatus.awaiting_approval ∧
    Effect.legacyDeploy ∈
      (approveDeployment regC10 webProdFail vPass (.ok ("p", "r", "l"))
        "order-1").2.2 ∧
    ((approveDeployment regC10 webProdFail vPass (.ok ("p", "r", "l"))
        "order-1").2.2 = [Effect.deployWeb, Effect.legacyDeploy, Effect.notifyError] ∧
     (approveDeployment regC10 webProdFail vPass (.ok ("p", "r", "l"))
        "order-1").1.success = false ∧
     (approveDeployment regC10 webProdFail vPass (.ok ("p", "r", "l"))
        "order-1").2.1.map ProjectState.status = some ProjStatus.completed) :=
  ⟨by decide, by decide,
   approveDeployment_legacy_deploy.1 regC10 webProdFail vPass (.ok ("p", "r", "l"))
     "order-1" stC10 (by decide) (by decide),
   approveDeployment_legacy_deploy.2 regC10 webProdFail vPass (.ok ("p", "r", "l"))
     "order-1" stC10 (by decide) (by decide) (by decide) (by decide) (by decide)⟩
